import Mathlib

/-!
Verification of the adapter plugin-interface resolver described by the
repository's documentation (the `AdapterModelInterface` guide page).

The repository ships the guide page and a notebook; the resolver itself
(`construct` / `resolve` / `accessor`) lives in the external library the
guide documents, so its behaviour is modelled here from the specification's
own words (each such definition carries a doc comment saying so).  The
role vocabulary, the canonical declaration order, the mandatory-role sets
per adapter method, and the naming convention are taken from the guide
page (src/unnamed/part_000).
-/

namespace AdapterInterface

/-- Modelled from the spec: the fixed enumeration of semantic roles of the
`AdapterModelInterface`, with constructor names matching the attribute
names of the guide page's examples. -/
inductive Role where
  | model_embeddings
  | model_layers
  | layer_self_attn
  | layer_cross_attn
  | attn_k_proj
  | attn_q_proj
  | attn_v_proj
  | attn_o_proj
  | layer_intermediate_proj
  | layer_output_proj
  | layer_pre_self_attn
  | layer_pre_cross_attn
  | layer_pre_ffn
  | layer_ln_1
  | layer_ln_2
deriving DecidableEq, Repr, Fintype

/-- Modelled from the spec: the attribute name of each role as written in
the guide page's interface declarations. -/
def roleName : Role → String
  | .model_embeddings => "model_embeddings"
  | .model_layers => "model_layers"
  | .layer_self_attn => "layer_self_attn"
  | .layer_cross_attn => "layer_cross_attn"
  | .attn_k_proj => "attn_k_proj"
  | .attn_q_proj => "attn_q_proj"
  | .attn_v_proj => "attn_v_proj"
  | .attn_o_proj => "attn_o_proj"
  | .layer_intermediate_proj => "layer_intermediate_proj"
  | .layer_output_proj => "layer_output_proj"
  | .layer_pre_self_attn => "layer_pre_self_attn"
  | .layer_pre_cross_attn => "layer_pre_cross_attn"
  | .layer_pre_ffn => "layer_pre_ffn"
  | .layer_ln_1 => "layer_ln_1"
  | .layer_ln_2 => "layer_ln_2"

/-- Modelled from the spec: the canonical role order — embeddings first,
then the layer collection, then the layer-scoped roles in the declaration
order of the guide page's full example. -/
def canonicalRoles : List Role :=
  [.model_embeddings, .model_layers,
   .layer_self_attn, .layer_cross_attn,
   .attn_k_proj, .attn_q_proj, .attn_v_proj, .attn_o_proj,
   .layer_intermediate_proj, .layer_output_proj,
   .layer_pre_self_attn, .layer_pre_cross_attn, .layer_pre_ffn,
   .layer_ln_1, .layer_ln_2]

/-- Modelled from the spec: the layer-scoped roles, i.e. the canonical
roles that resolve relative to one transformer layer rather than the
model root, in canonical order. -/
def layerRoles : List Role :=
  [.layer_self_attn, .layer_cross_attn,
   .attn_k_proj, .attn_q_proj, .attn_v_proj, .attn_o_proj,
   .layer_intermediate_proj, .layer_output_proj,
   .layer_pre_self_attn, .layer_pre_cross_attn, .layer_pre_ffn,
   .layer_ln_1, .layer_ln_2]

/-- Modelled from the spec: the adapter-method vocabulary used by the
guide page's examples (`adapter_methods=["lora", "reft"]`, plus
`"bottleneck"` in the extended example). -/
inductive AdapterMethod where
  | lora
  | reft
  | bottleneck
deriving DecidableEq, Repr

/-- Modelled from the spec: the roles mandated by each adapter method.
LoRA and ReFT need the embeddings, the layer collection, the
self-attention block, the four attention projections and the two
feed-forward projections; bottleneck adapters additionally need the
normalization roles.  The cross-attention roles are always optional. -/
def mandatoryRoles : AdapterMethod → List Role
  | .lora =>
      [.model_embeddings, .model_layers, .layer_self_attn,
       .attn_k_proj, .attn_q_proj, .attn_v_proj, .attn_o_proj,
       .layer_intermediate_proj, .layer_output_proj]
  | .reft =>
      [.model_embeddings, .model_layers, .layer_self_attn,
       .attn_k_proj, .attn_q_proj, .attn_v_proj, .attn_o_proj,
       .layer_intermediate_proj, .layer_output_proj]
  | .bottleneck =>
      [.model_embeddings, .model_layers, .layer_self_attn,
       .attn_k_proj, .attn_q_proj, .attn_v_proj, .attn_o_proj,
       .layer_intermediate_proj, .layer_output_proj,
       .layer_pre_self_attn, .layer_pre_ffn, .layer_ln_1, .layer_ln_2]

/-- Whether some requested adapter method mandates the given role. -/
def roleMandatory (ms : List AdapterMethod) (r : Role) : Bool :=
  ms.any fun m => decide (r ∈ mandatoryRoles m)

/-- Modelled from the spec: a role map entry is either a dotted attribute
path or an explicit absent marker (`layer_cross_attn=None`). -/
inductive RoleEntry where
  | present (path : String)
  | absent
deriving DecidableEq, Repr

/-- Modelled from the spec: the RoleMap assigns to every role either a
dotted path or the absent marker. -/
def RoleMap : Type := Role → RoleEntry

/-- Modelled from the spec: the configuration error returned by
`construct`, naming the missing mandatory role. -/
inductive ConfigError where
  | missingRole (r : Role)
deriving DecidableEq, Repr

/-- Modelled from the spec: the validated interface returned by
`construct`, carrying the role map and the requested method set
unchanged. -/
structure Interface where
  roleMap : RoleMap
  methods : List AdapterMethod

/-- Modelled from the spec: scan a role list in order and fail on the
first role that is mandated by the method set but absent in the map. -/
def checkRoles (rm : RoleMap) (ms : List AdapterMethod) : List Role → Except ConfigError Unit
  | [] => .ok ()
  | r :: rs =>
      if roleMandatory ms r && (rm r == .absent) then
        .error (.missingRole r)
      else
        checkRoles rm ms rs

/-- Modelled from the spec: `construct(roleMap, methodSet)` validates that
every role mandated by the method set has a non-absent entry, scanning
roles in canonical order, and fails with `ConfigError.missingRole` naming
the first missing mandatory role. -/
def construct (rm : RoleMap) (ms : List AdapterMethod) : Except ConfigError Interface :=
  match checkRoles rm ms canonicalRoles with
  | .error e => .error e
  | .ok _ => .ok ⟨rm, ms⟩

/-- Modelled from the spec: a live model object graph — a module with
named sub-attributes and, when it is a layer collection, an ordered list
of contained layer modules.  The `uid` field gives modules an identity so
that handle equality is meaningful. -/
inductive Module where
  | mk (uid : Nat) (attrs : List (String × Module)) (items : List Module)

/-- The named sub-attributes of a module. -/
def Module.attrs : Module → List (String × Module)
  | .mk _ a _ => a

/-- The ordered items of a (layer-collection) module. -/
def Module.items : Module → List Module
  | .mk _ _ it => it

/-- The identity of a module. -/
def Module.uid : Module → Nat
  | .mk u _ _ => u

/-- Split a character list on a separator character, accumulating the
current segment in reverse. -/
def splitCharAux (sep : Char) : List Char → List Char → List String
  | [], acc => [String.mk acc.reverse]
  | c :: rest, acc =>
      if c = sep then
        String.mk acc.reverse :: splitCharAux sep rest []
      else
        splitCharAux sep rest (c :: acc)

/-- Split a string on a separator character into its segments. -/
def splitOnChar (sep : Char) (s : String) : List String :=
  splitCharAux sep s.toList []

/-- First-match lookup of a named attribute in an attribute list. -/
def lookupAttr (s : String) : List (String × Module) → Option Module
  | [] => none
  | (n, m) :: rest => if n = s then some m else lookupAttr s rest

/-- Named-member lookup on a module ("get named sub-object by string"). -/
def getAttr (m : Module) (s : String) : Option Module :=
  lookupAttr s m.attrs

/-- Modelled from the spec: iterative named-member lookup along a list of
path segments, falling back to a structured absence when a segment does
not exist. -/
def resolvePath (m : Module) : List String → Option Module
  | [] => some m
  | s :: rest =>
      match getAttr m s with
      | none => none
      | some m2 => resolvePath m2 rest

/-- Modelled from the spec: dotted-path traversal — the path string is
split on the dot separator and resolved segment by segment. -/
def resolveDotted (m : Module) (path : String) : Option Module :=
  resolvePath m (splitOnChar '.' path)

/-- The part of a role's attribute name before the first underscore — the
guide page says this part defines the base module relative to which the
attribute value is specified: "model" for the model root, "layer" for one
transformer layer, "attn" for the layer's attention block. -/
def roleNameHead (r : Role) : String :=
  (splitOnChar '_' (roleName r)).headD ""

/-- The reference module a layer-scoped role's path starts from, per the
guide page's naming convention: roles whose name head is "attn" resolve
relative to the layer's attention block, the others relative to the layer
itself. -/
def refModule (lay attnBase : Module) (r : Role) : Module :=
  if roleNameHead r = "attn" then attnBase else lay

/-- Modelled from the spec: the resolution error returned by `resolve`:
either a path segment that does not exist on the corresponding object, or
a model-level role that the map leaves absent. -/
inductive ResolutionError where
  | pathNotFound (r : Role) (path : String)
  | roleAbsent (r : Role)
deriving DecidableEq, Repr

/-- Modelled from the spec: a per-layer record binding each present
layer-scoped role to the live handle of its resolved submodule. -/
structure ResolvedLayer where
  bindings : List (Role × Module)

/-- Modelled from the spec: the resolved model — the embedding submodule
handle plus one ResolvedLayer per layer, in layer order. -/
structure ResolvedModel where
  embeddings : Module
  layers : List ResolvedLayer

/-- Modelled from the spec: resolve the given roles in order, skipping
absent roles and failing with `pathNotFound` on the first present role
whose dotted path does not resolve against its reference module (the
layer, or the attention block for "attn"-headed roles, per the guide
page's convention). -/
def resolveRoles (rm : RoleMap) (lay attnBase : Module) : List Role → Except ResolutionError (List (Role × Module))
  | [] => .ok []
  | r :: rs =>
      match rm r with
      | .absent => resolveRoles rm lay attnBase rs
      | .present p =>
          match resolveDotted (refModule lay attnBase r) p with
          | none => .error (.pathNotFound r p)
          | some h =>
              match resolveRoles rm lay attnBase rs with
              | .error e => .error e
              | .ok bs => .ok ((r, h) :: bs)

/-- Modelled from the spec and the guide page's convention: resolve one
layer — locate the attention block via `layer_self_attn` first (falling
back to the layer itself when that role is absent, which `construct`
rules out for every method), then scan the layer-scoped roles in
canonical order. -/
def resolveLayer (rm : RoleMap) (lay : Module) : Except ResolutionError ResolvedLayer :=
  match rm .layer_self_attn with
  | .absent =>
      match resolveRoles rm lay lay layerRoles with
      | .error e => .error e
      | .ok bs => .ok ⟨bs⟩
  | .present ps =>
      match resolveDotted lay ps with
      | none => .error (.pathNotFound .layer_self_attn ps)
      | some sa =>
          match resolveRoles rm lay sa layerRoles with
          | .error e => .error e
          | .ok bs => .ok ⟨bs⟩

/-- Modelled from the spec: resolve each layer of the ordered collection
in order, aborting on the first failing layer. -/
def resolveLayers (rm : RoleMap) : List Module → Except ResolutionError (List ResolvedLayer)
  | [] => .ok []
  | lay :: rest =>
      match resolveLayer rm lay with
      | .error e => .error e
      | .ok rl =>
          match resolveLayers rm rest with
          | .error e => .error e
          | .ok ls => .ok (rl :: ls)

/-- Modelled from the spec: `resolve(interface, modelRoot)` walks the
root following the `model_embeddings` and `model_layers` paths, then
resolves every layer-scoped role per layer in canonical order, failing
with `ResolutionError.pathNotFound` if any segment of any path does not
exist; on failure no resolved state is produced at all. -/
def resolve (i : Interface) (root : Module) : Except ResolutionError ResolvedModel :=
  match i.roleMap .model_embeddings with
  | .absent => .error (.roleAbsent .model_embeddings)
  | .present pe =>
      match resolveDotted root pe with
      | none => .error (.pathNotFound .model_embeddings pe)
      | some emb =>
          match i.roleMap .model_layers with
          | .absent => .error (.roleAbsent .model_layers)
          | .present pl =>
              match resolveDotted root pl with
              | none => .error (.pathNotFound .model_layers pl)
              | some lmod =>
                  match resolveLayers i.roleMap lmod.items with
                  | .error e => .error e
                  | .ok ls => .ok ⟨emb, ls⟩

/-- First-match lookup of a role binding in a resolved layer. -/
def lookupBinding (r : Role) : List (Role × Module) → Option Module
  | [] => none
  | (r2, h) :: rest => if r2 = r then some h else lookupBinding r rest

/-- Modelled from the spec: `accessor(resolvedModel, layerIndex, role)`
returns the cached handle for the role at the given layer, by pure lookup
into the resolved cache — the model's attribute tree is not an argument,
so no re-traversal can occur. -/
def accessor (res : ResolvedModel) (idx : Nat) (r : Role) : Option Module :=
  match res.layers.get? idx with
  | none => none
  | some rl => lookupBinding r rl.bindings

/-- Boolean check that a role entry resolves against a module: absent
entries trivially do, present entries must have a resolvable path. -/
def entryResolvesB (e : RoleEntry) (base : Module) : Bool :=
  match e with
  | .absent => true
  | .present p => (resolveDotted base p).isSome

/-- Boolean check that one layer's attribute tree matches the role map:
the attention block is locatable and every layer-scoped role's entry
resolves against its reference module. -/
def layerResolvesB (rm : RoleMap) (lay : Module) : Bool :=
  match rm .layer_self_attn with
  | .absent => layerRoles.all fun r => entryResolvesB (rm r) (refModule lay lay r)
  | .present ps =>
      match resolveDotted lay ps with
      | none => false
      | some sa => layerRoles.all fun r => entryResolvesB (rm r) (refModule lay sa r)

/-- The reported invalid role is the canonical-order-earliest failing
site of resolution: either the embeddings path itself fails at the model
root; or the embeddings resolved and the layer-collection path fails; or
both model-level paths resolved, every earlier layer of the collection
resolved fully, and within the failing layer every canonically-earlier
layer-scoped role's entry resolved fine (the attention block is located
first, a failure there being reported as `layer_self_attn`, the
canonically-first layer-scoped role). -/
def ResolveErrorCanonicalFirst (rm : RoleMap) (root : Module) (r : Role) (p : String) : Prop :=
  (r = .model_embeddings ∧ rm .model_embeddings = .present p ∧ resolveDotted root p = none)
  ∨ (∃ pe emb, rm .model_embeddings = .present pe ∧ resolveDotted root pe = some emb ∧
      r = .model_layers ∧ rm .model_layers = .present p ∧ resolveDotted root p = none)
  ∨ (∃ pe emb pl lmod pre lay post,
      rm .model_embeddings = .present pe ∧ resolveDotted root pe = some emb ∧
      rm .model_layers = .present pl ∧ resolveDotted root pl = some lmod ∧
      lmod.items = pre ++ lay :: post ∧
      (∀ lay2 ∈ pre, ∃ rl, resolveLayer rm lay2 = .ok rl) ∧
      ((r = .layer_self_attn ∧ rm .layer_self_attn = .present p ∧ resolveDotted lay p = none)
        ∨ ∃ ab rpre rpost,
            ((rm .layer_self_attn = .absent ∧ ab = lay) ∨
              (∃ ps, rm .layer_self_attn = .present ps ∧ resolveDotted lay ps = some ab)) ∧
            layerRoles = rpre ++ r :: rpost ∧
            rm r = .present p ∧ resolveDotted (refModule lay ab r) p = none ∧
            ∀ r2 ∈ rpre, entryResolvesB (rm r2) (refModule lay ab r2) = true))

/-- A role map given as an association list, the representation whose
iteration order the spec says must not influence error reporting. -/
def RoleMapL : Type := List (Role × RoleEntry)

/-- First-match lookup of a role in an association-list role map. -/
def lookupRole (r : Role) : RoleMapL → Option RoleEntry
  | [] => none
  | (r2, e) :: rest => if r2 = r then some e else lookupRole r rest

/-- The role map denoted by an association list: unlisted roles are
absent. -/
def toRoleMap (l : RoleMapL) : RoleMap :=
  fun r => (lookupRole r l).getD .absent

/-- `construct` applied to an association-list role map. -/
def constructL (l : RoleMapL) (ms : List AdapterMethod) : Except ConfigError Interface :=
  construct (toRoleMap l) ms

/-- `resolve` applied to an interface built from an association-list role
map. -/
def resolveL (l : RoleMapL) (ms : List AdapterMethod) (root : Module) : Except ResolutionError ResolvedModel :=
  resolve ⟨toRoleMap l, ms⟩ root

/-- Modelled from the spec: a bottleneck adapter configuration, reduced to
the one flag the guide page's Limitations section mentions. -/
structure BottleneckConfig where
  original_ln_after : Bool
deriving DecidableEq, Repr

/-- Modelled from the spec: `AdapterPlusConfig` sets
`original_ln_after=False`, which the Limitations section says is affected
by the restriction. -/
def adapterPlusConfig : BottleneckConfig :=
  ⟨false⟩

/-- Modelled from the spec: the features a user may request from the
plugin-interface approach: the four limited ones from the guide page's
Limitations section (`prefTuning` stands for Prefix Tuning adapters)
alongside the supported LoRA and ReFT methods. -/
inductive FeatureRequest where
  | prefTuning
  | parallelComposition
  | xAdapterModelClass
  | bottleneckAdapter (cfg : BottleneckConfig)
  | loraAdapter
  | reftAdapter
deriving DecidableEq, Repr

/-- Modelled from the spec: the error raised for a feature the plugin
interface does not support. -/
inductive PluginError where
  | unsupportedFeature (f : FeatureRequest)
deriving DecidableEq, Repr

/-- Modelled from the spec: the guide page's Limitations section — Prefix
Tuning adapters, parallel composition blocks, XAdapterModel classes and
bottleneck configurations with `original_ln_after=False` are not supported
via the plugin interface, so requesting them fails rather than silently
succeeding; LoRA and ReFT requests succeed. -/
def checkFeature : FeatureRequest → Except PluginError Unit
  | .prefTuning => .error (.unsupportedFeature .prefTuning)
  | .parallelComposition => .error (.unsupportedFeature .parallelComposition)
  | .xAdapterModelClass => .error (.unsupportedFeature .xAdapterModelClass)
  | .bottleneckAdapter cfg =>
      if cfg.original_ln_after then .ok () else .error (.unsupportedFeature (.bottleneckAdapter cfg))
  | .loraAdapter => .ok ()
  | .reftAdapter => .ok ()

/-- The role map of the guide page's first example (Gemma 2, LoRA and
ReFT): cross-attention and the normalization roles are absent. -/
def gemmaRoleMap : RoleMap := fun r =>
  match r with
  | .model_embeddings => .present "embed_tokens"
  | .model_layers => .present "layers"
  | .layer_self_attn => .present "self_attn"
  | .layer_cross_attn => .absent
  | .attn_k_proj => .present "k_proj"
  | .attn_q_proj => .present "q_proj"
  | .attn_v_proj => .present "v_proj"
  | .attn_o_proj => .present "o_proj"
  | .layer_intermediate_proj => .present "mlp.up_proj"
  | .layer_output_proj => .present "mlp.down_proj"
  | .layer_pre_self_attn => .absent
  | .layer_pre_cross_attn => .absent
  | .layer_pre_ffn => .absent
  | .layer_ln_1 => .absent
  | .layer_ln_2 => .absent

/-- The guide page's role map with the query-projection role removed, an
input on which `construct` must report the missing mandatory role. -/
def rmMissingQ : RoleMap := fun r =>
  match r with
  | .attn_q_proj => .absent
  | r2 => gemmaRoleMap r2

/-- The guide page's first example as an association list, in declaration
order. -/
def gemmaRoleMapL : RoleMapL :=
  [(.model_embeddings, .present "embed_tokens"),
   (.model_layers, .present "layers"),
   (.layer_self_attn, .present "self_attn"),
   (.layer_cross_attn, .absent),
   (.attn_k_proj, .present "k_proj"),
   (.attn_q_proj, .absent),
   (.attn_v_proj, .present "v_proj"),
   (.attn_o_proj, .present "o_proj"),
   (.layer_intermediate_proj, .present "mlp.up_proj"),
   (.layer_output_proj, .present "mlp.down_proj")]

/-- The same association list in reversed iteration order. -/
def gemmaRoleMapLRev : RoleMapL :=
  gemmaRoleMapL.reverse

/-- A Gemma-like self-attention block with the four projections.  Module
identities are offsets of the given base so distinct layers hold distinct
handles. -/
def gemmaSelfAttn (u : Nat) : Module :=
  .mk (u + 1)
    [("k_proj", .mk (u + 2) [] []),
     ("q_proj", .mk (u + 3) [] []),
     ("v_proj", .mk (u + 4) [] []),
     ("o_proj", .mk (u + 5) [] [])]
    []

/-- A Gemma-like transformer layer: a self-attention block with the four
projections and an MLP block with up and down projections. -/
def gemmaLayer (u : Nat) : Module :=
  .mk u
    [("self_attn", gemmaSelfAttn u),
     ("mlp", .mk (u + 6)
        [("up_proj", .mk (u + 7) [] []),
         ("down_proj", .mk (u + 8) [] [])] [])]
    []

/-- A defective layer whose MLP block lacks the down projection. -/
def gemmaLayerNoDown (u : Nat) : Module :=
  .mk u
    [("self_attn", gemmaSelfAttn u),
     ("mlp", .mk (u + 6)
        [("up_proj", .mk (u + 7) [] [])] [])]
    []

/-- The embedding submodule of the concrete model. -/
def embedTokens : Module :=
  .mk 1 [] []

/-- The layer collection of the concrete model: two well-formed layers. -/
def gemmaLayersMod : Module :=
  .mk 2 [] [gemmaLayer 100, gemmaLayer 200]

/-- A concrete model root whose attribute tree matches the guide page's
role map. -/
def gemmaRoot : Module :=
  .mk 0 [("embed_tokens", embedTokens), ("layers", gemmaLayersMod)] []

/-- A layer collection whose second layer lacks the down projection. -/
def brokenLayersMod : Module :=
  .mk 2 [] [gemmaLayer 100, gemmaLayerNoDown 200]

/-- A concrete model root whose second layer misses one path segment of
the role map. -/
def gemmaRootBroken : Module :=
  .mk 0 [("embed_tokens", embedTokens), ("layers", brokenLayersMod)] []

/-- The validated interface of the guide page's first example. -/
def gemmaInterface : Interface :=
  ⟨gemmaRoleMap, [.lora, .reft]⟩

/-- The resolved model obtained by resolving the guide page's interface
against the concrete matching model (with a harmless fallback in the
unreachable error branch). -/
def gemmaResolved : ResolvedModel :=
  match resolve gemmaInterface gemmaRoot with
  | .ok res => res
  | .error _ => ⟨embedTokens, []⟩

/-- The role bindings the resolver produces for the first concrete layer
(with a harmless fallback in the unreachable error branch). -/
def gemmaLayer0Bindings : List (Role × Module) :=
  match resolveLayer gemmaRoleMap (gemmaLayer 100) with
  | .ok rl => rl.bindings
  | .error _ => []

/-- Every role occurs in the canonical role order. -/
theorem mem_canonicalRoles (r : Role) : r ∈ canonicalRoles := by
  cases r <;> simp [canonicalRoles]

/-- The role scan succeeds when no scanned role is both mandatory and
absent. -/
theorem checkRoles_ok_of (rm : RoleMap) (ms : List AdapterMethod) :
    ∀ roles : List Role, (∀ r ∈ roles, roleMandatory ms r = true → rm r ≠ .absent) →
      checkRoles rm ms roles = .ok () := by
  intro roles
  induction roles with
  | nil => intro _; rfl
  | cons r rs ih =>
      intro hall
      have hcond : ¬((roleMandatory ms r && (rm r == .absent)) = true) := by
        simp only [Bool.and_eq_true, beq_iff_eq]
        rintro ⟨h1, h2⟩
        exact hall r (List.mem_cons_self r rs) h1 h2
      simp only [checkRoles]
      rw [if_neg hcond]
      exact ih fun r2 h2 => hall r2 (List.mem_cons_of_mem r h2)

/-- When some scanned role is mandatory and absent, the role scan fails
with `missingRole` naming the earliest such role in scan order. -/
theorem checkRoles_error_of (rm : RoleMap) (ms : List AdapterMethod) :
    ∀ (roles : List Role) (r0 : Role), r0 ∈ roles → roleMandatory ms r0 = true → rm r0 = .absent →
      ∃ r pre post, checkRoles rm ms roles = .error (.missingRole r) ∧
        roleMandatory ms r = true ∧ rm r = .absent ∧
        roles = pre ++ r :: post ∧
        ∀ r2 ∈ pre, ¬(roleMandatory ms r2 = true ∧ rm r2 = .absent) := by
  intro roles
  induction roles with
  | nil => intro r0 h0; cases h0
  | cons r rs ih =>
      intro r0 h0 hm0 ha0
      by_cases hc : (roleMandatory ms r && (rm r == .absent)) = true
      · have hc2 := hc
        simp only [Bool.and_eq_true, beq_iff_eq] at hc2
        refine ⟨r, [], rs, ?_, hc2.1, hc2.2, rfl, by simp⟩
        simp only [checkRoles]
        rw [if_pos hc]
      · have hr0 : r0 ∈ rs := by
          rcases List.mem_cons.mp h0 with he | h
          · subst he
            exact absurd (by simp only [Bool.and_eq_true, beq_iff_eq]; exact ⟨hm0, ha0⟩) hc
          · exact h
        obtain ⟨r1, pre, post, heq, hm1, ha1, hsplit, hpre⟩ := ih r0 hr0 hm0 ha0
        refine ⟨r1, r :: pre, post, ?_, hm1, ha1, by rw [hsplit]; rfl, ?_⟩
        · simp only [checkRoles]
          rw [if_neg hc]
          exact heq
        · intro r2 h2
          rcases List.mem_cons.mp h2 with he | h
          · subst he
            simp only [Bool.and_eq_true, beq_iff_eq] at hc
            exact hc
          · exact hpre r2 h

/-- `construct` succeeds exactly with the role map and methods packed
unchanged when the canonical scan succeeds. -/
theorem construct_ok_inv (rm : RoleMap) (ms : List AdapterMethod) (i : Interface) :
    construct rm ms = .ok i → i.roleMap = rm ∧ i.methods = ms := by
  intro h
  unfold construct at h
  cases hc : checkRoles rm ms canonicalRoles with
  | error e => rw [hc] at h; cases h
  | ok u => rw [hc] at h; cases h; exact ⟨rfl, rfl⟩

/-- `construct` propagates the canonical scan's error unchanged. -/
theorem construct_error_inv (rm : RoleMap) (ms : List AdapterMethod) (e : ConfigError) :
    construct rm ms = .error e → checkRoles rm ms canonicalRoles = .error e := by
  intro h
  unfold construct at h
  cases hc : checkRoles rm ms canonicalRoles with
  | error e2 => rw [hc] at h; cases h; rfl
  | ok u => rw [hc] at h; cases h

/-- The role scan succeeds when every scanned role's entry resolves
against its reference module. -/
theorem resolveRoles_ok_of_all (rm : RoleMap) (lay ab : Module) :
    ∀ roles : List Role, (∀ r ∈ roles, entryResolvesB (rm r) (refModule lay ab r) = true) →
      ∃ bs, resolveRoles rm lay ab roles = .ok bs := by
  intro roles
  induction roles with
  | nil => intro _; exact ⟨[], rfl⟩
  | cons r rs ih =>
      intro hall
      have htail := fun r2 h2 => hall r2 (List.mem_cons_of_mem r h2)
      obtain ⟨bs, hbs⟩ := ih htail
      have hr := hall r (List.mem_cons_self r rs)
      cases he : rm r with
      | absent =>
          exact ⟨bs, by simp only [resolveRoles, he]; exact hbs⟩
      | present p =>
          rw [he] at hr
          simp only [entryResolvesB, Option.isSome_iff_exists] at hr
          obtain ⟨h, hh⟩ := hr
          refine ⟨(r, h) :: bs, ?_⟩
          simp only [resolveRoles, he, hh, hbs]

/-- The role scan fails when some scanned role has a present entry whose
path does not resolve against its reference module. -/
theorem resolveRoles_error_of (rm : RoleMap) (lay ab : Module) :
    ∀ (roles : List Role) (r0 : Role) (p0 : String), r0 ∈ roles → rm r0 = .present p0 →
      resolveDotted (refModule lay ab r0) p0 = none →
      ∃ r p, resolveRoles rm lay ab roles = .error (.pathNotFound r p) := by
  intro roles
  induction roles with
  | nil => intro r0 p0 h0; cases h0
  | cons r rs ih =>
      intro r0 p0 h0 hp0 hn0
      cases he : rm r with
      | absent =>
          have hr0 : r0 ∈ rs := by
            rcases List.mem_cons.mp h0 with heq | h
            · subst heq; rw [he] at hp0; cases hp0
            · exact h
          obtain ⟨r1, p1, h1⟩ := ih r0 p0 hr0 hp0 hn0
          exact ⟨r1, p1, by simp only [resolveRoles, he]; exact h1⟩
      | present p =>
          cases hd : resolveDotted (refModule lay ab r) p with
          | none =>
              exact ⟨r, p, by simp only [resolveRoles, he, hd]⟩
          | some h =>
              have hr0 : r0 ∈ rs := by
                rcases List.mem_cons.mp h0 with heq | hmem
                · subst heq
                  rw [he] at hp0
                  cases hp0
                  rw [hd] at hn0
                  cases hn0
                · exact hmem
              obtain ⟨r1, p1, h1⟩ := ih r0 p0 hr0 hp0 hn0
              refine ⟨r1, p1, ?_⟩
              simp only [resolveRoles, he, hd, h1]

/-- Any error of the role scan is a `pathNotFound` naming the earliest
failing role in scan order; every earlier role's entry resolved fine. -/
theorem resolveRoles_error_shape (rm : RoleMap) (lay ab : Module) :
    ∀ (roles : List Role) (e : ResolutionError), resolveRoles rm lay ab roles = .error e →
      ∃ r p pre post, e = .pathNotFound r p ∧ rm r = .present p ∧
        resolveDotted (refModule lay ab r) p = none ∧ roles = pre ++ r :: post ∧
        ∀ r2 ∈ pre, entryResolvesB (rm r2) (refModule lay ab r2) = true := by
  intro roles
  induction roles with
  | nil => intro e h; cases h
  | cons r rs ih =>
      intro e h
      cases he : rm r with
      | absent =>
          simp only [resolveRoles, he] at h
          obtain ⟨r1, p1, pre, post, h1, h2, h3, h4, h5⟩ := ih e h
          refine ⟨r1, p1, r :: pre, post, h1, h2, h3, by rw [h4]; rfl, ?_⟩
          intro r2 hmem
          rcases List.mem_cons.mp hmem with heq | hmem2
          · subst heq; simp [entryResolvesB, he]
          · exact h5 r2 hmem2
      | present p =>
          cases hd : resolveDotted (refModule lay ab r) p with
          | none =>
              simp only [resolveRoles, he, hd] at h
              cases h
              exact ⟨r, p, [], rs, rfl, he, hd, rfl, by simp⟩
          | some hmod =>
              simp only [resolveRoles, he, hd] at h
              cases hrs : resolveRoles rm lay ab rs with
              | error e2 =>
                  rw [hrs] at h
                  cases h
                  obtain ⟨r1, p1, pre, post, h1, h2, h3, h4, h5⟩ := ih _ hrs
                  refine ⟨r1, p1, r :: pre, post, h1, h2, h3, by rw [h4]; rfl, ?_⟩
                  intro r2 hmem
                  rcases List.mem_cons.mp hmem with heq | hmem2
                  · subst heq; simp [entryResolvesB, he, hd]
                  · exact h5 r2 hmem2
              | ok bs => rw [hrs] at h; cases h

/-- A successful role scan caches, for each scanned present role, exactly
the handle its dotted path resolves to from its reference module. -/
theorem resolveRoles_lookup (rm : RoleMap) (lay ab : Module) :
    ∀ (roles : List Role) (bs : List (Role × Module)) (r : Role) (p : String),
      resolveRoles rm lay ab roles = .ok bs → r ∈ roles → rm r = .present p →
      ∃ h, resolveDotted (refModule lay ab r) p = some h ∧ lookupBinding r bs = some h := by
  intro roles
  induction roles with
  | nil => intro bs r p _ hmem; cases hmem
  | cons r2 rs ih =>
      intro bs r p hok hmem hp
      cases he : rm r2 with
      | absent =>
          simp only [resolveRoles, he] at hok
          have hr : r ∈ rs := by
            rcases List.mem_cons.mp hmem with heq | hm
            · subst heq; rw [he] at hp; cases hp
            · exact hm
          exact ih bs r p hok hr hp
      | present p2 =>
          cases hd2 : resolveDotted (refModule lay ab r2) p2 with
          | none =>
              simp only [resolveRoles, he, hd2] at hok
              cases hok
          | some h2 =>
              simp only [resolveRoles, he, hd2] at hok
              cases hrs : resolveRoles rm lay ab rs with
              | error e => rw [hrs] at hok; cases hok
              | ok bs2 =>
                  rw [hrs] at hok
                  cases hok
                  by_cases heq : r2 = r
                  · subst heq
                    rw [he] at hp
                    cases hp
                    refine ⟨h2, hd2, ?_⟩
                    simp [lookupBinding]
                  · have hr : r ∈ rs := by
                      rcases List.mem_cons.mp hmem with heq2 | hm
                      · exact absurd heq2.symm heq
                      · exact hm
                    obtain ⟨h, hdh, hlook⟩ := ih bs2 r p hrs hr hp
                    refine ⟨h, hdh, ?_⟩
                    simp only [lookupBinding]
                    rw [if_neg heq]
                    exact hlook

/-- One layer resolves successfully when its attribute tree matches the
role map. -/
theorem resolveLayer_ok_of (rm : RoleMap) (lay : Module) :
    layerResolvesB rm lay = true → ∃ rl, resolveLayer rm lay = .ok rl := by
  intro hB
  cases hss : rm .layer_self_attn with
  | absent =>
      simp only [layerResolvesB, hss, List.all_eq_true] at hB
      obtain ⟨bs, hbs⟩ := resolveRoles_ok_of_all rm lay lay layerRoles hB
      exact ⟨⟨bs⟩, by simp only [resolveLayer, hss, hbs]⟩
  | present ps =>
      cases hsa : resolveDotted lay ps with
      | none =>
          simp only [layerResolvesB, hss, hsa] at hB
          cases hB
      | some sa =>
          simp only [layerResolvesB, hss, hsa, List.all_eq_true] at hB
          obtain ⟨bs, hbs⟩ := resolveRoles_ok_of_all rm lay sa layerRoles hB
          exact ⟨⟨bs⟩, by simp only [resolveLayer, hss, hsa, hbs]⟩

/-- When the attention block is locatable, a successful layer resolution
is exactly a successful role scan with that attention base. -/
theorem resolveLayer_ok_inv (rm : RoleMap) (lay sa : Module) (ps : String) (rl : ResolvedLayer)
    (hss : rm .layer_self_attn = .present ps) (hsa : resolveDotted lay ps = some sa) :
    resolveLayer rm lay = .ok rl → resolveRoles rm lay sa layerRoles = .ok rl.bindings := by
  intro h
  simp only [resolveLayer, hss, hsa] at h
  cases hscan : resolveRoles rm lay sa layerRoles with
  | error e => rw [hscan] at h; cases h
  | ok bs =>
      rw [hscan] at h
      cases h
      rfl

/-- One layer's resolution fails when some present role's path does not
resolve against its reference module. -/
theorem resolveLayer_error_of (rm : RoleMap) (lay sa : Module) (ps : String)
    (r0 : Role) (p0 : String)
    (hss : rm .layer_self_attn = .present ps) (hsa : resolveDotted lay ps = some sa)
    (h0 : r0 ∈ layerRoles) (hp0 : rm r0 = .present p0)
    (hn0 : resolveDotted (refModule lay sa r0) p0 = none) :
    ∃ e, resolveLayer rm lay = .error e := by
  obtain ⟨r, p, herr⟩ := resolveRoles_error_of rm lay sa layerRoles r0 p0 h0 hp0 hn0
  exact ⟨.pathNotFound r p, by simp only [resolveLayer, hss, hsa, herr]⟩

/-- Any error of one layer's resolution is a `pathNotFound`. -/
theorem resolveLayer_error_shape (rm : RoleMap) (lay : Module) (e : ResolutionError) :
    resolveLayer rm lay = .error e → ∃ r p, e = .pathNotFound r p := by
  intro h
  cases hss : rm .layer_self_attn with
  | absent =>
      simp only [resolveLayer, hss] at h
      cases hscan : resolveRoles rm lay lay layerRoles with
      | error e2 =>
          rw [hscan] at h
          cases h
          obtain ⟨r, p, pre, post, h1, _⟩ := resolveRoles_error_shape rm lay lay layerRoles _ hscan
          exact ⟨r, p, h1⟩
      | ok bs => rw [hscan] at h; cases h
  | present ps =>
      cases hsa : resolveDotted lay ps with
      | none =>
          simp only [resolveLayer, hss, hsa] at h
          cases h
          exact ⟨.layer_self_attn, ps, rfl⟩
      | some sa =>
          simp only [resolveLayer, hss, hsa] at h
          cases hscan : resolveRoles rm lay sa layerRoles with
          | error e2 =>
              rw [hscan] at h
              cases h
              obtain ⟨r, p, pre, post, h1, _⟩ := resolveRoles_error_shape rm lay sa layerRoles _ hscan
              exact ⟨r, p, h1⟩
          | ok bs => rw [hscan] at h; cases h

/-- Layer-collection resolution succeeds when every layer resolves,
producing one resolved layer per model layer, in order. -/
theorem resolveLayers_ok_of (rm : RoleMap) :
    ∀ lays : List Module, (∀ lay ∈ lays, ∃ rl, resolveLayer rm lay = .ok rl) →
      ∃ ls, resolveLayers rm lays = .ok ls ∧
        List.Forall₂ (fun lay rl => resolveLayer rm lay = .ok rl) lays ls := by
  intro lays
  induction lays with
  | nil => intro _; exact ⟨[], rfl, List.Forall₂.nil⟩
  | cons lay rest ih =>
      intro hall
      obtain ⟨rl, hrl⟩ := hall lay (List.mem_cons_self lay rest)
      obtain ⟨ls, hls, hf⟩ := ih fun l2 h2 => hall l2 (List.mem_cons_of_mem lay h2)
      refine ⟨rl :: ls, ?_, List.Forall₂.cons hrl hf⟩
      simp only [resolveLayers, hrl, hls]

/-- Any successful layer-collection resolution pairs each model layer, in
order, with the resolved layer its resolution produced. -/
theorem resolveLayers_ok_inv (rm : RoleMap) :
    ∀ (lays : List Module) (ls : List ResolvedLayer), resolveLayers rm lays = .ok ls →
      List.Forall₂ (fun lay rl => resolveLayer rm lay = .ok rl) lays ls := by
  intro lays
  induction lays with
  | nil =>
      intro ls h
      cases h
      exact List.Forall₂.nil
  | cons lay rest ih =>
      intro ls h
      cases hrl : resolveLayer rm lay with
      | error e => simp only [resolveLayers, hrl] at h; cases h
      | ok rl =>
          simp only [resolveLayers, hrl] at h
          cases hrest : resolveLayers rm rest with
          | error e => rw [hrest] at h; cases h
          | ok ls2 =>
              rw [hrest] at h
              cases h
              exact List.Forall₂.cons hrl (ih ls2 hrest)

/-- Layer-collection resolution fails whenever some layer's resolution
fails. -/
theorem resolveLayers_error_of_mem (rm : RoleMap) :
    ∀ (lays : List Module) (lay : Module) (e0 : ResolutionError), lay ∈ lays →
      resolveLayer rm lay = .error e0 →
      ∃ e, resolveLayers rm lays = .error e := by
  intro lays
  induction lays with
  | nil => intro lay e0 hmem; cases hmem
  | cons l2 rest ih =>
      intro lay e0 hmem herr
      cases hrl : resolveLayer rm l2 with
      | error e => exact ⟨e, by simp only [resolveLayers, hrl]⟩
      | ok rl =>
          have hmem2 : lay ∈ rest := by
            rcases List.mem_cons.mp hmem with heq | hm
            · subst heq; rw [hrl] at herr; cases herr
            · exact hm
          obtain ⟨e, he⟩ := ih lay e0 hmem2 herr
          exact ⟨e, by simp only [resolveLayers, hrl, he]⟩

/-- Any error of layer-collection resolution is a `pathNotFound`. -/
theorem resolveLayers_error_shape (rm : RoleMap) :
    ∀ (lays : List Module) (e : ResolutionError), resolveLayers rm lays = .error e →
      ∃ r p, e = .pathNotFound r p := by
  intro lays
  induction lays with
  | nil => intro e h; cases h
  | cons lay rest ih =>
      intro e h
      cases hrl : resolveLayer rm lay with
      | error e2 =>
          simp only [resolveLayers, hrl] at h
          cases h
          exact resolveLayer_error_shape rm lay _ hrl
      | ok rl =>
          simp only [resolveLayers, hrl] at h
          cases hrest : resolveLayers rm rest with
          | error e2 =>
              rw [hrest] at h
              cases h
              exact ih _ hrest
          | ok ls => rw [hrest] at h; cases h

/-- Any error of layer-collection resolution arises at some layer whose
predecessors in the collection all resolved fully. -/
theorem resolveLayers_error_split (rm : RoleMap) :
    ∀ (lays : List Module) (e : ResolutionError), resolveLayers rm lays = .error e →
      ∃ pre lay post, lays = pre ++ lay :: post ∧
        (∀ l2 ∈ pre, ∃ rl, resolveLayer rm l2 = .ok rl) ∧
        resolveLayer rm lay = .error e := by
  intro lays
  induction lays with
  | nil => intro e h; cases h
  | cons lay rest ih =>
      intro e h
      cases hrl : resolveLayer rm lay with
      | error e2 =>
          simp only [resolveLayers, hrl] at h
          cases h
          exact ⟨[], lay, rest, rfl, by simp, hrl⟩
      | ok rl =>
          simp only [resolveLayers, hrl] at h
          cases hrest : resolveLayers rm rest with
          | error e2 =>
              rw [hrest] at h
              cases h
              obtain ⟨pre, l2, post, h1, h2, h3⟩ := ih _ hrest
              refine ⟨lay :: pre, l2, post, by rw [h1]; rfl, ?_, h3⟩
              intro l3 hmem
              rcases List.mem_cons.mp hmem with heq | hm
              · subst heq; exact ⟨rl, hrl⟩
              · exact h2 l3 hm
          | ok ls => rw [hrest] at h; cases h

/-- Any `pathNotFound` error of one layer's resolution names the
scan-earliest failing layer-scoped role: either locating the attention
block itself failed (reported as `layer_self_attn`, the first
layer-scoped role), or the attention base was located and every role
before the reported one in the canonical layer-role order resolved
fine. -/
theorem resolveLayer_error_split (rm : RoleMap) (lay : Module) (r : Role) (p : String) :
    resolveLayer rm lay = .error (.pathNotFound r p) →
      (r = .layer_self_attn ∧ rm .layer_self_attn = .present p ∧ resolveDotted lay p = none)
      ∨ ∃ ab rpre rpost,
          ((rm .layer_self_attn = .absent ∧ ab = lay) ∨
            (∃ ps, rm .layer_self_attn = .present ps ∧ resolveDotted lay ps = some ab)) ∧
          layerRoles = rpre ++ r :: rpost ∧
          rm r = .present p ∧ resolveDotted (refModule lay ab r) p = none ∧
          ∀ r2 ∈ rpre, entryResolvesB (rm r2) (refModule lay ab r2) = true := by
  intro h
  cases hss : rm .layer_self_attn with
  | absent =>
      simp only [resolveLayer, hss] at h
      cases hscan : resolveRoles rm lay lay layerRoles with
      | error e2 =>
          rw [hscan] at h
          cases h
          obtain ⟨r1, p1, rpre, rpost, h1, h2, h3, h4, h5⟩ :=
            resolveRoles_error_shape rm lay lay layerRoles _ hscan
          cases h1
          exact Or.inr ⟨lay, rpre, rpost, Or.inl ⟨rfl, rfl⟩, h4, h2, h3, h5⟩
      | ok bs => rw [hscan] at h; cases h
  | present ps =>
      cases hsa : resolveDotted lay ps with
      | none =>
          simp only [resolveLayer, hss, hsa] at h
          cases h
          exact Or.inl ⟨rfl, rfl, hsa⟩
      | some sa =>
          simp only [resolveLayer, hss, hsa] at h
          cases hscan : resolveRoles rm lay sa layerRoles with
          | error e2 =>
              rw [hscan] at h
              cases h
              obtain ⟨r1, p1, rpre, rpost, h1, h2, h3, h4, h5⟩ :=
                resolveRoles_error_shape rm lay sa layerRoles _ hscan
              cases h1
              exact Or.inr ⟨sa, rpre, rpost, Or.inr ⟨ps, rfl, hsa⟩, h4, h2, h3, h5⟩
          | ok bs => rw [hscan] at h; cases h

/-- Any `pathNotFound` error of `resolve` names the canonical-order
earliest failing site: embeddings first, then the layer collection, then
per-layer per-role in canonical role order. -/
theorem resolve_error_first (i : Interface) (root : Module) (r : Role) (p : String) :
    resolve i root = .error (.pathNotFound r p) →
      ResolveErrorCanonicalFirst i.roleMap root r p := by
  intro h
  cases he : i.roleMap .model_embeddings with
  | absent =>
      simp only [resolve, he] at h
      cases h
  | present pe =>
      cases hde : resolveDotted root pe with
      | none =>
          simp only [resolve, he, hde] at h
          cases h
          exact Or.inl ⟨rfl, he, hde⟩
      | some emb =>
          cases hle : i.roleMap .model_layers with
          | absent =>
              simp only [resolve, he, hde, hle] at h
              cases h
          | present pl =>
              cases hdl : resolveDotted root pl with
              | none =>
                  simp only [resolve, he, hde, hle, hdl] at h
                  cases h
                  exact Or.inr (Or.inl ⟨pe, emb, he, hde, rfl, hle, hdl⟩)
              | some lmod =>
                  simp only [resolve, he, hde, hle, hdl] at h
                  cases hlay : resolveLayers i.roleMap lmod.items with
                  | error e2 =>
                      rw [hlay] at h
                      cases h
                      obtain ⟨pre, lay, post, h1, h2, h3⟩ :=
                        resolveLayers_error_split i.roleMap lmod.items _ hlay
                      have hinner := resolveLayer_error_split i.roleMap lay r p h3
                      exact Or.inr (Or.inr ⟨pe, emb, pl, lmod, pre, lay, post,
                        he, hde, hle, hdl, h1, h2, hinner⟩)
                  | ok ls => rw [hlay] at h; cases h

/-- Positionwise reading of a `Forall₂` relation between two lists. -/
theorem forall2_get_left {α β : Type} {R : α → β → Prop} :
    ∀ {l1 : List α} {l2 : List β}, List.Forall₂ R l1 l2 →
      ∀ (i : Nat) (a : α), l1.get? i = some a → ∃ b, l2.get? i = some b ∧ R a b := by
  intro l1 l2 h
  induction h with
  | nil =>
      intro i a h2
      cases i <;> cases h2
  | cons hab htail ih =>
      intro i a h2
      cases i with
      | zero =>
          cases h2
          exact ⟨_, rfl, hab⟩
      | succ n => exact ih n a h2

/-- First-match association lookup is invariant under permuting an
association list whose keys are pairwise distinct. -/
theorem lookupRole_perm :
    ∀ {l1 l2 : RoleMapL}, List.Perm l1 l2 → (List.map Prod.fst l1).Nodup →
      ∀ r, lookupRole r l1 = lookupRole r l2 := by
  intro l1 l2 hperm
  induction hperm with
  | nil => intro _ r; rfl
  | cons x h2 ih =>
      intro nd r
      obtain ⟨x1, xe⟩ := x
      simp only [List.map_cons, List.nodup_cons] at nd
      by_cases hx : x1 = r
      · simp only [lookupRole]
        rw [if_pos hx, if_pos hx]
      · simp only [lookupRole]
        rw [if_neg hx, if_neg hx]
        exact ih nd.2 r
  | swap x y l =>
      intro nd r
      obtain ⟨x1, xe⟩ := x
      obtain ⟨y1, ye⟩ := y
      simp only [List.map_cons, List.nodup_cons, List.mem_cons] at nd
      have hxy : y1 ≠ x1 := fun he => nd.1 (Or.inl he)
      by_cases hy : y1 = r
      · have hx : ¬(x1 = r) := fun he => hxy (hy.trans he.symm)
        simp only [lookupRole]
        rw [if_pos hy, if_neg hx, if_pos hy]
      · by_cases hx : x1 = r
        · simp only [lookupRole]
          rw [if_neg hy, if_pos hx, if_pos hx]
        · simp only [lookupRole]
          rw [if_neg hy, if_neg hx, if_neg hx, if_neg hy]
  | trans h1 h2 ih1 ih2 =>
      intro nd r
      have nd2 := ((h1.map Prod.fst).nodup_iff).mp nd
      exact (ih1 nd r).trans (ih2 nd2 r)

/-- Any error of the role scan names the earliest scanned role that is
mandatory and absent. -/
theorem checkRoles_error_shape (rm : RoleMap) (ms : List AdapterMethod) :
    ∀ (roles : List Role) (e : ConfigError), checkRoles rm ms roles = .error e →
      ∃ r pre post, e = .missingRole r ∧ roleMandatory ms r = true ∧ rm r = .absent ∧
        roles = pre ++ r :: post ∧
        ∀ r2 ∈ pre, ¬(roleMandatory ms r2 = true ∧ rm r2 = .absent) := by
  intro roles
  induction roles with
  | nil => intro e h; cases h
  | cons r rs ih =>
      intro e h
      by_cases hc : (roleMandatory ms r && (rm r == .absent)) = true
      · simp only [checkRoles] at h
        rw [if_pos hc] at h
        cases h
        simp only [Bool.and_eq_true, beq_iff_eq] at hc
        exact ⟨r, [], rs, rfl, hc.1, hc.2, rfl, by simp⟩
      · simp only [checkRoles] at h
        rw [if_neg hc] at h
        obtain ⟨r1, pre, post, h1, h2, h3, h4, h5⟩ := ih e h
        refine ⟨r1, r :: pre, post, h1, h2, h3, by rw [h4]; rfl, ?_⟩
        intro r2 hmem
        rcases List.mem_cons.mp hmem with heq | hm
        · subst heq
          simp only [Bool.and_eq_true, beq_iff_eq] at hc
          exact hc
        · exact h5 r2 hm

/-- C1: for every RoleMap that is missing at least one role mandated by
the selected adapter-method set, `construct` fails with
`ConfigError.missingRole` naming exactly the missing mandatory role that
comes first in canonical order (every canonical role before it is not a
missing mandatory role), never a generic error — `missingRole` is the
only `ConfigError` form — and never success. -/
theorem construct_reports_first_missing_role (rm : RoleMap) (ms : List AdapterMethod) (r0 : Role)
    (hm0 : roleMandatory ms r0 = true) (ha0 : rm r0 = .absent) :
    ∃ r pre post, construct rm ms = .error (.missingRole r) ∧
      roleMandatory ms r = true ∧ rm r = .absent ∧
      canonicalRoles = pre ++ r :: post ∧
      (∀ r2 ∈ pre, ¬(roleMandatory ms r2 = true ∧ rm r2 = .absent)) ∧
      ∀ i, construct rm ms ≠ .ok i := by
  obtain ⟨r, pre, post, herr, hm, ha, hsplit, hpre⟩ :=
    checkRoles_error_of rm ms canonicalRoles r0 (mem_canonicalRoles r0) hm0 ha0
  refine ⟨r, pre, post, ?_, hm, ha, hsplit, hpre, ?_⟩
  · unfold construct
    rw [herr]
  · intro i hok
    unfold construct at hok
    rw [herr] at hok
    cases hok

/-- Witness for C1: the guide page's role map with the query projection
removed makes `construct` report `attn_q_proj` under LoRA. -/
theorem construct_reports_first_missing_role_witness :
    ∃ r pre post, construct rmMissingQ [.lora] = .error (.missingRole r) ∧
      roleMandatory [.lora] r = true ∧ rmMissingQ r = .absent ∧
      canonicalRoles = pre ++ r :: post ∧
      (∀ r2 ∈ pre, ¬(roleMandatory [.lora] r2 = true ∧ rmMissingQ r2 = .absent)) ∧
      ∀ i, construct rmMissingQ [.lora] ≠ .ok i :=
  construct_reports_first_missing_role rmMissingQ [.lora] .attn_q_proj (by decide) rfl

/-- C4: for every RoleMap in which all roles mandated by the selected
adapter-method set are present (optional roles may be absent),
`construct` succeeds and returns an Interface. -/
theorem construct_ok_when_mandatory_present (rm : RoleMap) (ms : List AdapterMethod)
    (hall : ∀ m ∈ ms, ∀ r ∈ mandatoryRoles m, rm r ≠ .absent) :
    ∃ i, construct rm ms = .ok i ∧ i.roleMap = rm ∧ i.methods = ms := by
  have hok : checkRoles rm ms canonicalRoles = .ok () := by
    apply checkRoles_ok_of
    intro r _ hmand
    simp only [roleMandatory, List.any_eq_true, decide_eq_true_eq] at hmand
    obtain ⟨m, hm, hr⟩ := hmand
    exact hall m hm r hr
  refine ⟨⟨rm, ms⟩, ?_, rfl, rfl⟩
  unfold construct
  rw [hok]

/-- Witness for C4: the guide page's LoRA/ReFT role map, which leaves the
cross-attention and normalization roles absent, constructs fine. -/
theorem construct_ok_when_mandatory_present_witness :
    ∃ i, construct gemmaRoleMap [.lora, .reft] = .ok i ∧
      i.roleMap = gemmaRoleMap ∧ i.methods = [.lora, .reft] :=
  construct_ok_when_mandatory_present gemmaRoleMap [.lora, .reft] (by decide)

/-- C2: for every RoleMap containing a path with a segment that does not
exist on the model, `resolve` fails with
`ResolutionError.pathNotFound`, and on this failure no partial
ResolvedLayer set is retained: the result is the bare error, never a
ResolvedModel, and since `resolve` is a pure function of the immutable
model value, the model's resolved-state is unchanged on error. -/
theorem resolve_fails_path_not_found (i : Interface) (root : Module) (pe pl ps : String)
    (emb lmod lay sa : Module) (r0 : Role) (p0 : String)
    (h1 : i.roleMap .model_embeddings = .present pe)
    (h2 : resolveDotted root pe = some emb)
    (h3 : i.roleMap .model_layers = .present pl)
    (h4 : resolveDotted root pl = some lmod)
    (h5 : lay ∈ lmod.items)
    (hss : i.roleMap .layer_self_attn = .present ps)
    (hsa : resolveDotted lay ps = some sa)
    (h6 : i.roleMap r0 = .present p0)
    (h7 : r0 ∈ layerRoles)
    (h8 : resolveDotted (refModule lay sa r0) p0 = none) :
    ∃ r p, resolve i root = .error (.pathNotFound r p) ∧
      ∀ res, resolve i root ≠ .ok res := by
  obtain ⟨e0, herr⟩ := resolveLayer_error_of i.roleMap lay sa ps r0 p0 hss hsa h7 h6 h8
  obtain ⟨e, he⟩ := resolveLayers_error_of_mem i.roleMap lmod.items lay e0 h5 herr
  obtain ⟨r, p, hep⟩ := resolveLayers_error_shape i.roleMap lmod.items e he
  subst hep
  refine ⟨r, p, ?_, ?_⟩
  · simp only [resolve, h1, h2, h3, h4, he]
  · intro res hok
    simp only [resolve, h1, h2, h3, h4, he] at hok
    cases hok

/-- Witness for C2: a model whose second layer lacks `mlp.down_proj`
makes `resolve` fail with `pathNotFound` and never succeed. -/
theorem resolve_fails_path_not_found_witness :
    ∃ r p, resolve gemmaInterface gemmaRootBroken = .error (.pathNotFound r p) ∧
      ∀ res, resolve gemmaInterface gemmaRootBroken ≠ .ok res :=
  resolve_fails_path_not_found gemmaInterface gemmaRootBroken "embed_tokens" "layers"
    "self_attn" embedTokens brokenLayersMod (gemmaLayerNoDown 200) (gemmaSelfAttn 200)
    .layer_output_proj "mlp.down_proj"
    rfl rfl rfl rfl
    (List.mem_cons_of_mem _ (List.mem_cons_self _ _))
    rfl rfl rfl (by decide) rfl

/-- C3: for every model whose attribute tree matches all paths of the
RoleMap, `resolve` succeeds and produces exactly one ResolvedLayer per
layer of the model's layer collection, paired with the layers in
collection order. -/
theorem resolve_ok_one_layer_per_layer (i : Interface) (root : Module) (pe pl : String)
    (emb lmod : Module)
    (h1 : i.roleMap .model_embeddings = .present pe)
    (h2 : resolveDotted root pe = some emb)
    (h3 : i.roleMap .model_layers = .present pl)
    (h4 : resolveDotted root pl = some lmod)
    (h5 : ∀ lay ∈ lmod.items, layerResolvesB i.roleMap lay = true) :
    ∃ res, resolve i root = .ok res ∧ res.embeddings = emb ∧
      res.layers.length = lmod.items.length ∧
      List.Forall₂ (fun lay rl => resolveLayer i.roleMap lay = .ok rl)
        lmod.items res.layers := by
  have hall : ∀ lay ∈ lmod.items, ∃ rl, resolveLayer i.roleMap lay = .ok rl :=
    fun lay hm => resolveLayer_ok_of i.roleMap lay (h5 lay hm)
  obtain ⟨ls, hls, hf⟩ := resolveLayers_ok_of i.roleMap lmod.items hall
  refine ⟨⟨emb, ls⟩, ?_, rfl, ?_, hf⟩
  · simp only [resolve, h1, h2, h3, h4, hls]
  · exact (List.Forall₂.length_eq hf).symm

/-- Witness for C3: the concrete two-layer model matching the guide
page's role map resolves to one resolved layer per layer, in order. -/
theorem resolve_ok_one_layer_per_layer_witness :
    ∃ res, resolve gemmaInterface gemmaRoot = .ok res ∧ res.embeddings = embedTokens ∧
      res.layers.length = gemmaLayersMod.items.length ∧
      List.Forall₂ (fun lay rl => resolveLayer gemmaInterface.roleMap lay = .ok rl)
        gemmaLayersMod.items res.layers :=
  resolve_ok_one_layer_per_layer gemmaInterface gemmaRoot "embed_tokens" "layers"
    embedTokens gemmaLayersMod rfl rfl rfl rfl (by decide)

/-- C5: dotted-path resolution is associative over path segments:
resolving a concatenated segment list in one step equals resolving the
first part and then resolving the remaining segments relative to the
intermediate result. -/
theorem resolvePath_append (m : Module) (p q : List String) :
    resolvePath m (p ++ q) = (resolvePath m p).bind fun m2 => resolvePath m2 q := by
  induction p generalizing m with
  | nil => rfl
  | cons s rest ih =>
      simp only [List.cons_append, resolvePath]
      cases getAttr m s with
      | none => rfl
      | some m2 => exact ih m2

/-- C6: error reporting is deterministic and independent of map
iteration order: association-list role maps that are permutations of
each other (with pairwise-distinct keys) give identical `construct` and
`resolve` results; the missing role `construct` reports is always the
earliest missing mandatory role in canonical order; and the invalid role
named by any `pathNotFound` error of `resolve` is always the
canonical-order-earliest failing site — embeddings first, then the layer
collection, then per-layer per-role in role-declaration order. -/
theorem error_reporting_order_independent (l1 l2 : RoleMapL) (ms : List AdapterMethod)
    (hperm : List.Perm l1 l2) (hnd : (List.map Prod.fst l1).Nodup) :
    constructL l1 ms = constructL l2 ms ∧
    (∀ root, resolveL l1 ms root = resolveL l2 ms root) ∧
    (∀ r, constructL l1 ms = .error (.missingRole r) →
      ∃ pre post, canonicalRoles = pre ++ r :: post ∧
        roleMandatory ms r = true ∧ toRoleMap l1 r = .absent ∧
        ∀ r2 ∈ pre, ¬(roleMandatory ms r2 = true ∧ toRoleMap l1 r2 = .absent)) ∧
    ∀ root r p, resolveL l1 ms root = .error (.pathNotFound r p) →
      ResolveErrorCanonicalFirst (toRoleMap l1) root r p := by
  have hmap : toRoleMap l1 = toRoleMap l2 := by
    funext r
    unfold toRoleMap
    rw [lookupRole_perm hperm hnd r]
  refine ⟨?_, ?_, ?_, ?_⟩
  · unfold constructL
    rw [hmap]
  · intro root
    unfold resolveL
    rw [hmap]
  · intro r herr
    have hck := construct_error_inv _ _ _ herr
    obtain ⟨r1, pre, post, h1, h2, h3, h4, h5⟩ :=
      checkRoles_error_shape (toRoleMap l1) ms canonicalRoles _ hck
    cases h1
    exact ⟨pre, post, h4, h2, h3, h5⟩
  · intro root r p herr
    exact resolve_error_first ⟨toRoleMap l1, ms⟩ root r p herr

/-- Witness for C6: the guide page's role map as an association list and
its reversal report the same first missing role, and resolve errors on
either are canonical-order-first. -/
theorem error_reporting_order_independent_witness :
    constructL gemmaRoleMapL [.lora] = constructL gemmaRoleMapLRev [.lora] ∧
    (∀ root, resolveL gemmaRoleMapL [.lora] root = resolveL gemmaRoleMapLRev [.lora] root) ∧
    (∀ r, constructL gemmaRoleMapL [.lora] = .error (.missingRole r) →
      ∃ pre post, canonicalRoles = pre ++ r :: post ∧
        roleMandatory [.lora] r = true ∧ toRoleMap gemmaRoleMapL r = .absent ∧
        ∀ r2 ∈ pre, ¬(roleMandatory [.lora] r2 = true ∧ toRoleMap gemmaRoleMapL r2 = .absent)) ∧
    ∀ root r p, resolveL gemmaRoleMapL [.lora] root = .error (.pathNotFound r p) →
      ResolveErrorCanonicalFirst (toRoleMap gemmaRoleMapL) root r p :=
  error_reporting_order_independent gemmaRoleMapL gemmaRoleMapLRev [.lora]
    (List.reverse_perm gemmaRoleMapL).symm (by decide)

/-- C7: `accessor` is an idempotent cached lookup: for a successfully
resolved model, the handle it returns for a layer index and role is
exactly the handle cached at first resolution — the one dotted-path
traversal of the model found — and since `accessor` is a pure lookup
into the resolved cache that does not even receive the model as an
argument, re-invoking it returns the same handle with no re-traversal of
the model's attribute tree. -/
theorem accessor_returns_cached_handle (i : Interface) (root : Module) (res : ResolvedModel)
    (pl ps : String) (lmod lay sa : Module) (idx : Nat) (r : Role) (p : String) (h : Module)
    (hres : resolve i root = .ok res)
    (h3 : i.roleMap .model_layers = .present pl)
    (h4 : resolveDotted root pl = some lmod)
    (hidx : lmod.items.get? idx = some lay)
    (hss : i.roleMap .layer_self_attn = .present ps)
    (hsa : resolveDotted lay ps = some sa)
    (hr : r ∈ layerRoles)
    (hp : i.roleMap r = .present p)
    (hh : resolveDotted (refModule lay sa r) p = some h) :
    accessor res idx r = some h := by
  cases he : i.roleMap .model_embeddings with
  | absent =>
      simp only [resolve, he] at hres
      cases hres
  | present pe =>
      cases hde : resolveDotted root pe with
      | none =>
          simp only [resolve, he, hde] at hres
          cases hres
      | some emb =>
          simp only [resolve, he, hde, h3, h4] at hres
          cases hlay : resolveLayers i.roleMap lmod.items with
          | error e =>
              rw [hlay] at hres
              cases hres
          | ok ls =>
              rw [hlay] at hres
              cases hres
              have hf := resolveLayers_ok_inv i.roleMap lmod.items ls hlay
              obtain ⟨rl, hget, hok⟩ := forall2_get_left hf idx lay hidx
              have hscan := resolveLayer_ok_inv i.roleMap lay sa ps rl hss hsa hok
              obtain ⟨h2, hd2, hlook⟩ :=
                resolveRoles_lookup i.roleMap lay sa layerRoles rl.bindings r p hscan hr hp
              rw [hh] at hd2
              cases hd2
              simp only [accessor, hget]
              exact hlook

/-- Witness for C7: in the resolved concrete model, the cached handle of
the second layer's output projection is the `mlp.down_proj` submodule
found at resolution time. -/
theorem accessor_returns_cached_handle_witness :
    accessor gemmaResolved 1 .layer_output_proj = some (.mk 208 [] []) :=
  accessor_returns_cached_handle gemmaInterface gemmaRoot gemmaResolved "layers" "self_attn"
    gemmaLayersMod (gemmaLayer 200) (gemmaSelfAttn 200) 1 .layer_output_proj "mlp.down_proj"
    (.mk 208 [] [])
    rfl rfl rfl rfl rfl rfl (by decide) rfl rfl

/-- C8: the RoleMap is immutable after construction: `construct` embeds
the given role map unchanged in the returned interface, so a single role
map can be shared read-only, and `resolve` — a pure function of the
interface and the model — yields for that interface exactly what it
yields for the original role map on every model instance. -/
theorem construct_roleMap_immutable (rm : RoleMap) (ms : List AdapterMethod) (i : Interface)
    (h : construct rm ms = .ok i) :
    i.roleMap = rm ∧ i.methods = ms ∧
      ∀ root, resolve i root = resolve ⟨rm, ms⟩ root := by
  obtain ⟨h1, h2⟩ := construct_ok_inv rm ms i h
  refine ⟨h1, h2, ?_⟩
  intro root
  cases i with
  | mk rmap meths =>
      obtain rfl : rmap = rm := h1
      obtain rfl : meths = ms := h2
      rfl

/-- Witness for C8: constructing from the guide page's role map returns
an interface carrying that very role map. -/
theorem construct_roleMap_immutable_witness :
    gemmaInterface.roleMap = gemmaRoleMap ∧ gemmaInterface.methods = [.lora, .reft] ∧
      ∀ root, resolve gemmaInterface root = resolve ⟨gemmaRoleMap, [.lora, .reft]⟩ root :=
  construct_roleMap_immutable gemmaRoleMap [.lora, .reft] gemmaInterface rfl

/-- Counterexample to C9 as stated: `attn_q_proj` does not resolve
relative to the individual transformer layer.  On the guide page's own
Gemma example its value "q_proj" does not exist on the layer (the
layer-relative traversal fails), yet layer resolution succeeds and binds
`attn_q_proj` to the submodule found inside the attention block bound by
`layer_self_attn`. -/
theorem role_base_module_counterexample :
    resolveDotted (gemmaLayer 100) "q_proj" = none ∧
    resolveLayer gemmaRoleMap (gemmaLayer 100) = .ok ⟨gemmaLayer0Bindings⟩ ∧
    lookupBinding .attn_q_proj gemmaLayer0Bindings = some (.mk 103 [] []) ∧
    getAttr (gemmaSelfAttn 100) "q_proj" = some (.mk 103 [] []) :=
  ⟨rfl, rfl, rfl, rfl⟩

/-- C9 (amended): the base module of each interface attribute is
determined by the attribute-name part before the first underscore —
"model"-headed attributes resolve relative to the base model root
(exactly `model_embeddings` and `model_layers`), while layer-scoped
attributes resolve relative to the individual transformer layer except
that "attn"-headed attributes resolve relative to the layer's attention
block located via `layer_self_attn`: the handle a successful layer
resolution caches for a present layer-scoped role is the one found by
traversing its path from the attention block when the name head is
"attn", and from the layer otherwise. -/
theorem role_base_module_from_name (rm : RoleMap) (lay sa : Module) (ps : String)
    (rl : ResolvedLayer) (r : Role) (p : String)
    (hss : rm .layer_self_attn = .present ps)
    (hsa : resolveDotted lay ps = some sa)
    (hok : resolveLayer rm lay = .ok rl)
    (hr : r ∈ layerRoles)
    (hp : rm r = .present p) :
    (∀ r2 : Role, roleNameHead r2 = "model" ↔ (r2 = .model_embeddings ∨ r2 = .model_layers)) ∧
    (∀ r2 : Role, ¬roleNameHead r2 = "model" ↔ r2 ∈ layerRoles) ∧
    ∃ h, lookupBinding r rl.bindings = some h ∧
      resolveDotted (if roleNameHead r = "attn" then sa else lay) p = some h := by
  have hscan := resolveLayer_ok_inv rm lay sa ps rl hss hsa hok
  obtain ⟨h, hd, hlook⟩ := resolveRoles_lookup rm lay sa layerRoles rl.bindings r p hscan hr hp
  refine ⟨?_, ?_, h, hlook, ?_⟩
  · intro r2
    cases r2 <;> exact by decide
  · intro r2
    cases r2 <;> exact by decide
  · rw [refModule] at hd
    exact hd

/-- Witness for the amended C9: on the guide page's example,
`attn_q_proj` is cached as the handle found from the attention block. -/
theorem role_base_module_from_name_witness :
    (∀ r2 : Role, roleNameHead r2 = "model" ↔ (r2 = .model_embeddings ∨ r2 = .model_layers)) ∧
    (∀ r2 : Role, ¬roleNameHead r2 = "model" ↔ r2 ∈ layerRoles) ∧
    ∃ h, lookupBinding .attn_q_proj gemmaLayer0Bindings = some h ∧
      resolveDotted (if roleNameHead .attn_q_proj = "attn" then gemmaSelfAttn 100 else gemmaLayer 100)
        "q_proj" = some h :=
  role_base_module_from_name gemmaRoleMap (gemmaLayer 100) (gemmaSelfAttn 100) "self_attn"
    ⟨gemmaLayer0Bindings⟩ .attn_q_proj "q_proj" rfl rfl rfl (by decide) rfl

/-- C10: the features the guide page's Limitations section lists —
Prefix Tuning adapters, parallel composition blocks, XAdapterModel
classes, and bottleneck configurations with `original_ln_after=False`
(hence `AdapterPlusConfig`) — fail with an unsupported-feature error and
never silently succeed, while LoRA and ReFT succeed. -/
theorem plugin_limitations_fail :
    checkFeature .prefTuning = .error (.unsupportedFeature .prefTuning) ∧
    checkFeature .parallelComposition = .error (.unsupportedFeature .parallelComposition) ∧
    checkFeature .xAdapterModelClass = .error (.unsupportedFeature .xAdapterModelClass) ∧
    checkFeature (.bottleneckAdapter adapterPlusConfig) =
      .error (.unsupportedFeature (.bottleneckAdapter adapterPlusConfig)) ∧
    checkFeature .loraAdapter = .ok () ∧
    checkFeature .reftAdapter = .ok () :=
  ⟨rfl, rfl, rfl, rfl, rfl, rfl⟩

end AdapterInterface
